import Mathlib

/-!
Verification development for the PageTurner web-novel crawler.

The definitions below are a shallow embedding, in Lean 4, of the Python
sources of the repository:

* `sanitize_filename` embeds `_sanitize_filename` (pageturner.py, lines 21-40);
* `Rx`, `matchRx`, `reSearch`, `get_next_chapter_url` embed
  `URLChapterNavigator.get_next_chapter_url` (src/core/chapter_navigator.py,
  lines 34-78), with Python's `re.search` realised by a small backtracking
  matcher over a regex syntax tree covering the constructs used by the
  configuration patterns (literals, `\d`, `+`, alternation, capturing groups);
* `HNode`, `selectOne`, `remove_unwanted_elements`, `extract_content` embed
  `ContentExtractor` (src/core/content_extractor.py); CSS selector matching
  is kept abstract as an element-intrinsic oracle (tag name and class list),
  which covers the tag/class selectors used by the configuration examples;
* `LoopState`, `loopStep`, `runLoop` embed the traversal loop of `main`
  (pageturner.py, lines 126-190) with the fetch / extractor / navigator
  collaborators abstracted as function parameters, and with the sequence of
  `(url, chapter_number)` pairs passed to `fetch_page` returned as a trace.

Python truthiness of strings and optional strings (`if chapter_html:`,
`if extracted_content:`, `if extracted_title:`) is modelled explicitly:
`none` and the empty string are falsy.
-/

/-- Truthiness of an optional string value, as Python evaluates it:
`None` and `""` are falsy, every other string is truthy. -/
def optTruthy : Option String → Bool
  | none => false
  | some s => s ≠ ""

/-! ## Filename sanitisation (`_sanitize_filename`, pageturner.py lines 21-40) -/

/-- One character of `str.lower()` (ASCII range, as exercised by the claims). -/
def pyLower (c : Char) : Char :=
  if c.isUpper then Char.ofNat (c.toNat + 32) else c

/-- Membership in Python's `\w` class (ASCII): alphanumeric or underscore. -/
def isWordChar (c : Char) : Bool :=
  c.isAlphanum || c == '_'

/-- Collapse every maximal run of the character `t` to a single copy
(`re.sub(r"[_]+", "_", s)` and `re.sub(r"[-]+", "-", s)`). -/
def collapseRuns (t : Char) : List Char → List Char
  | [] => []
  | [c] => [c]
  | c1 :: c2 :: rest =>
    if c1 == t && c2 == t then collapseRuns t (c2 :: rest)
    else c1 :: collapseRuns t (c2 :: rest)

/-- Leading/trailing strip of underscores and hyphens (`str.strip("_-")`). -/
def stripUnderscoreHyphen (l : List Char) : List Char :=
  ((l.dropWhile (fun c => c == '_' || c == '-')).reverse.dropWhile
    (fun c => c == '_' || c == '-')).reverse

/-- Embedding of `_sanitize_filename` (pageturner.py lines 21-40): lowercase,
spaces to underscores, drop characters outside `[^\w-]`, collapse runs of
underscores and of hyphens, strip leading/trailing underscores/hyphens,
append the `.epub` extension. -/
def sanitize_filename (title : String) : String :=
  let f1 := title.data.map pyLower
  let f2 := f1.map (fun c => if c == ' ' then '_' else c)
  let f3 := f2.filter (fun c => isWordChar c || c == '-')
  let f4 := collapseRuns '_' f3
  let f5 := collapseRuns '-' f4
  String.mk (stripUnderscoreHyphen f5) ++ ".epub"

/-! ## Regex engine for the navigator

`URLChapterNavigator` interprets its configured `url_pattern` through
Python's `re.search`.  The pattern is configuration data; we embed it as a
syntax tree `Rx` covering the constructs the configurations use, and give
`re.search` semantics (leftmost start position, backtracking preference
order, greedy `+`, capture of the last text consumed by each group). -/

/-- Regex syntax tree: literal character, `\d`, concatenation, alternation
`|`, greedy `+`, and a numbered capturing group. -/
inductive Rx where
  | eps : Rx
  | lit : Char → Rx
  | digit : Rx
  | cat : Rx → Rx → Rx
  | alt : Rx → Rx → Rx
  | plus : Rx → Rx
  | group : Nat → Rx → Rx
deriving DecidableEq, Repr

/-- Number of capturing groups in a pattern (`len(match.groups())` in
Python reports this count, independent of which groups participated). -/
def groupCount : Rx → Nat
  | Rx.eps => 0
  | Rx.lit _ => 0
  | Rx.digit => 0
  | Rx.cat a b => groupCount a + groupCount b
  | Rx.alt a b => groupCount a + groupCount b
  | Rx.plus r => groupCount r
  | Rx.group _ r => groupCount r + 1

/-- Size of a pattern, used to pick a sufficient fuel for the matcher. -/
def rxSize : Rx → Nat
  | Rx.eps => 1
  | Rx.lit _ => 1
  | Rx.digit => 1
  | Rx.cat a b => rxSize a + rxSize b + 1
  | Rx.alt a b => rxSize a + rxSize b + 1
  | Rx.plus r => rxSize r + 1
  | Rx.group _ r => rxSize r + 1

/-- Captures of a match: group index paired with the captured text; lookup
returns the most recent capture of a group, so a group is absent exactly
when it did not participate in the match (Python reports `None` then). -/
def Caps : Type := List (Nat × List Char)

/-- Concatenation of the lists produced from each element. -/
def cmap (f : α → List β) : List α → List β
  | [] => []
  | a :: t => f a ++ cmap f t

/-- Backtracking matcher: all ways the pattern can consume a prefix of the
input, in Python's preference order (first alternative first, more
repetitions of a greedy `+` first).  Each answer is the remaining input and
the captures accumulated so far.  Structural fuel; `reSearch` supplies
enough for the supported patterns. -/
def matchRx : Nat → Rx → List Char → Caps → List (List Char × Caps)
  | 0, _, _, _ => []
  | _ + 1, Rx.eps, s, g => [(s, g)]
  | _ + 1, Rx.lit c, s, g =>
    match s with
    | [] => []
    | x :: t => if x == c then [(t, g)] else []
  | _ + 1, Rx.digit, s, g =>
    match s with
    | [] => []
    | x :: t => if x.isDigit then [(t, g)] else []
  | fuel + 1, Rx.cat a b, s, g =>
    cmap (fun p => matchRx fuel b p.1 p.2) (matchRx fuel a s g)
  | fuel + 1, Rx.alt a b, s, g =>
    matchRx fuel a s g ++ matchRx fuel b s g
  | fuel + 1, Rx.plus r, s, g =>
    cmap (fun p =>
      (if p.1.length < s.length then matchRx fuel (Rx.plus r) p.1 p.2 else [])
        ++ [p])
      (matchRx fuel r s g)
  | fuel + 1, Rx.group n r, s, g =>
    (matchRx fuel r s g).map
      (fun p => (p.1, ((n, s.take (s.length - p.1.length)) :: p.2 : Caps)))

/-- Try the pattern at each start position from the left; at a position,
the matcher's first answer is the match `re.search` reports. -/
def searchFrom (pat : Rx) : List Char → Option Caps
  | [] =>
    match matchRx (rxSize pat + 2) pat [] [] with
    | p :: _ => some p.2
    | [] => none
  | c :: t =>
    match matchRx ((t.length + 2) * (rxSize pat + 2)) pat (c :: t) [] with
    | p :: _ => some p.2
    | [] => searchFrom pat t

/-- Embedding of `re.search(self.url_pattern, current_url)`: the captures of
the leftmost match, or `none` when the pattern matches nowhere. -/
def reSearch (pat : Rx) (s : List Char) : Option Caps :=
  searchFrom pat s

/-- Lookup of `match.group(n)` content among the captures: `none` means the
group did not participate in the match. -/
def capsLookup (caps : Caps) (n : Nat) : Option (List Char) :=
  List.lookup n caps

/-! ## Python fragments used by the navigator -/

/-- The Python exceptions relevant to `get_next_chapter_url`: `ValueError`
and `IndexError` are caught by the function, `TypeError` is not. -/
inductive PyExn where
  | valueError : PyExn
  | indexError : PyExn
  | typeError : PyExn
deriving DecidableEq, Repr

/-- Drop leading and trailing whitespace, as `int(str)` does before parsing. -/
def stripWsChars (l : List Char) : List Char :=
  ((l.dropWhile Char.isWhitespace).reverse.dropWhile Char.isWhitespace).reverse

/-- Continue parsing an integer literal body: digits, with single
underscores allowed between digits (Python `int` accepts `1_2`). -/
def digitsToNatU : Nat → List Char → Option Nat
  | acc, [] => some acc
  | acc, '_' :: rest =>
    match rest with
    | [] => none
    | d :: rest2 =>
      if d.isDigit then digitsToNatU (acc * 10 + (d.toNat - 48)) rest2 else none
  | acc, d :: rest =>
    if d.isDigit then digitsToNatU (acc * 10 + (d.toNat - 48)) rest else none

/-- Parse a nonempty digit sequence (underscore separators allowed). -/
def pyDigits : List Char → Option Nat
  | [] => none
  | d :: rest => if d.isDigit then digitsToNatU (d.toNat - 48) rest else none

/-- Embedding of Python `int(s)` on a string: strip whitespace, optional
sign, nonempty digits; `none` models the `ValueError` on failure. -/
def pyIntParse (l : List Char) : Option Int :=
  match stripWsChars l with
  | '+' :: rest => (pyDigits rest).map (fun n => (n : Int))
  | '-' :: rest => (pyDigits rest).map (fun n => -(n : Int))
  | rest => (pyDigits rest).map (fun n => (n : Int))

/-- Embedding of `re.sub("(\\d+)", repl, s, count=1)`: replace the first
maximal run of digits by `repl`, leave everything else unchanged. -/
def subFirstNum (repl : List Char) : List Char → List Char
  | [] => []
  | c :: rest =>
    if c.isDigit then repl ++ rest.dropWhile Char.isDigit
    else c :: subFirstNum repl rest

/-- Does the list start with the given pattern of characters? -/
def listStarts : List Char → List Char → Bool
  | _, [] => true
  | [], _ :: _ => false
  | a :: l, b :: p => a == b && listStarts l p

/-- Embedding of `str.replace(old, new, 1)`: replace the first occurrence
of `old` (insertion at the front when `old` is empty, as in Python). -/
def replFirst (pat new : List Char) : List Char → List Char
  | [] => if pat.isEmpty then new else []
  | c :: rest =>
    if listStarts (c :: rest) pat then new ++ (c :: rest).drop pat.length
    else c :: replFirst pat new rest

/-! ## `URLChapterNavigator.get_next_chapter_url`
(src/core/chapter_navigator.py lines 34-78) -/

/-- Access `match.group(i)`: `IndexError` when `i` exceeds the number of
groups of the pattern, otherwise the capture (`none` = non-participating). -/
def pyGroup (pat : Rx) (caps : Caps) (i : Nat) : Except PyExn (Option (List Char)) :=
  if i ≤ groupCount pat then Except.ok (capsLookup caps i) else Except.error PyExn.indexError

/-- Body of the `try:` block of `get_next_chapter_url`, given a successful
`re.search`: read the numeric group (group 2 when the pattern has more than
one group, else group 1), parse it (`int` raises `TypeError` on `None`,
`ValueError` on a non-integer string), add the increment, rebuild the
matched segment by substituting its first digit run (`re.sub` raises
`TypeError` when the segment is `None`), splice it into the URL, and guard
against an unchanged URL. -/
def navBody (pat : Rx) (increment_by : Int) (current_url : String) (caps : Caps) :
    Except PyExn (Option String) :=
  match (if groupCount pat > 1 then pyGroup pat caps 2 else pyGroup pat caps 1) with
  | Except.error e => Except.error e
  | Except.ok none => Except.error PyExn.typeError
  | Except.ok (some numStr) =>
    match pyIntParse numStr with
    | none => Except.error PyExn.valueError
    | some current_chapter_num =>
      let next_chapter_num := current_chapter_num + increment_by
      match pyGroup pat caps 1 with
      | Except.error e => Except.error e
      | Except.ok none => Except.error PyExn.typeError
      | Except.ok (some segment_to_replace) =>
        let new_segment := subFirstNum (toString next_chapter_num).data segment_to_replace
        let next_url := replFirst segment_to_replace new_segment current_url.data
        if next_url = current_url.data then Except.ok none
        else Except.ok (some (String.mk next_url))

/-- The `except` clauses of `get_next_chapter_url`: `ValueError` and
`IndexError` are caught and turned into `None`; anything else propagates. -/
def navCatch : Except PyExn (Option String) → Except PyExn (Option String)
  | Except.ok v => Except.ok v
  | Except.error PyExn.valueError => Except.ok none
  | Except.error PyExn.indexError => Except.ok none
  | Except.error PyExn.typeError => Except.error PyExn.typeError

/-- Embedding of `URLChapterNavigator.get_next_chapter_url`: search the URL
for the pattern (`None` when it does not match), then run the guarded body;
the result is `Except.error e` when the Python function raises `e` to its
caller. -/
def get_next_chapter_url (pat : Rx) (increment_by : Int) (current_url : String) :
    Except PyExn (Option String) :=
  match reSearch pat current_url.data with
  | none => Except.ok none
  | some caps => navCatch (navBody pat increment_by current_url caps)

/-- Helper to build the concatenation of a list of patterns. -/
def rcat : List Rx → Rx
  | [] => Rx.eps
  | [r] => r
  | r :: rest => Rx.cat r (rcat rest)

/-- Literal pattern for a string of characters. -/
def rlits (s : String) : Rx :=
  rcat (s.data.map Rx.lit)

/-- The documented example pattern `"(/chapter-(\d+)\.html)"`: group 1 is
the whole replaceable segment, group 2 the chapter number. -/
def chapterPattern : Rx :=
  Rx.group 1 (rcat [rlits "/chapter-", Rx.group 2 (Rx.plus Rx.digit), Rx.lit '.', rlits "html"])

/-! ## DOM model for `ContentExtractor`
(src/core/content_extractor.py)

The parsed document is a tree of element and text nodes.  CSS selector
matching is kept abstract as an oracle `msel` that decides, from a selector
string and an element's tag name and class list alone, whether the element
matches — the element-intrinsic selector sub-language (tag and class
selectors) used by the configurations.  `Tag.select` / `select_one` in
BeautifulSoup search the descendants of the node they are called on, never
the node itself. -/

/-- A parsed HTML node: an element with tag name, class list and children,
or a text node. -/
inductive HNode where
  | elem : String → List String → List HNode → HNode
  | text : String → HNode

/-- Does the node match the selector, under the intrinsic selector
semantics `msel`?  Text nodes never match. -/
def nodeMatches (msel : String → String → List String → Bool) (sel : String) :
    HNode → Bool
  | HNode.elem tag classes _ => msel sel tag classes
  | HNode.text _ => false

mutual

/-- All proper descendants of a node, in document (preorder) order. -/
def descendantsOf : HNode → List HNode
  | HNode.elem _ _ children => descendantsList children
  | HNode.text _ => []

/-- All nodes of a forest together with their proper descendants, in
document order. -/
def descendantsList : List HNode → List HNode
  | [] => []
  | n :: rest => n :: (descendantsOf n ++ descendantsList rest)

end

/-- Embedding of `select_one`: the first descendant, in document order,
matching the selector. -/
def selectOne (msel : String → String → List String → Bool) (sel : String)
    (root : HNode) : Option HNode :=
  (descendantsOf root).find? (nodeMatches msel sel)

mutual

/-- Remove, below the given node, every descendant matching the selector
(the node itself is never removed): the net effect of
`for e in tag.select(selector): e.decompose()`. -/
def removeMatching (msel : String → String → List String → Bool) (sel : String) :
    HNode → HNode
  | HNode.elem tag classes children =>
    HNode.elem tag classes (removeMatchingList msel sel children)
  | HNode.text s => HNode.text s

/-- Removal over a forest: drop matching roots, recurse into the others. -/
def removeMatchingList (msel : String → String → List String → Bool) (sel : String) :
    List HNode → List HNode
  | [] => []
  | n :: rest =>
    if nodeMatches msel sel n then removeMatchingList msel sel rest
    else removeMatching msel sel n :: removeMatchingList msel sel rest

end

/-- Embedding of `ContentExtractor._remove_unwanted_elements`
(content_extractor.py lines 90-97): apply the removal selectors in order,
each pass decomposing every matching descendant of the content node. -/
def remove_unwanted_elements (msel : String → String → List String → Bool)
    (remove_elements : List String) (content_tag : HNode) : HNode :=
  remove_elements.foldl (fun t sel => removeMatching msel sel t) content_tag

/-- Serialisation of the class attribute. -/
def classAttr : List String → String
  | [] => ""
  | c :: rest => " class=\"" ++ String.intercalate " " (c :: rest) ++ "\""

mutual

/-- Embedding of `str(tag)`: serialise the subtree back to markup. -/
def serializeNode : HNode → String
  | HNode.elem tag classes children =>
    "<" ++ tag ++ classAttr classes ++ ">" ++ serializeList children ++ "</" ++ tag ++ ">"
  | HNode.text s => s

/-- Serialisation of a forest of nodes. -/
def serializeList : List HNode → String
  | [] => ""
  | n :: rest => serializeNode n ++ serializeList rest

end

mutual

/-- The text fragments of a subtree, in document order
(the strings `get_text` concatenates). -/
def textFragments : HNode → List String
  | HNode.elem _ _ children => textFragmentsList children
  | HNode.text s => [s]

/-- Text fragments of a forest. -/
def textFragmentsList : List HNode → List String
  | [] => []
  | n :: rest => textFragments n ++ textFragmentsList rest

end

/-- Embedding of `tag.get_text(strip=True)`: each text fragment stripped of
surrounding whitespace, then concatenated. -/
def getTextStrip (n : HNode) : String :=
  String.join ((textFragments n).map String.trim)

/-- One content-selector rule, as loaded from configuration: the `.get`
accesses of the Python dict yield `none` for a missing key. -/
structure SelectorConfig where
  type : Option String
  selector : Option String

/-- The content-selection loop of `extract_content` (content_extractor.py
lines 60-79): walk the rules in configured order; skip a rule whose type or
selector is missing or empty; for a `css_selector` rule take the first
match of `select_one` and stop; skip rules of any other type. -/
def findContentTag (msel : String → String → List String → Bool) (soup : HNode) :
    List SelectorConfig → Option HNode
  | [] => none
  | cfg :: rest =>
    if !optTruthy cfg.type || !optTruthy cfg.selector then
      findContentTag msel soup rest
    else if cfg.type = some "css_selector" then
      match selectOne msel (cfg.selector.getD "") soup with
      | some found_tag => some found_tag
      | none => findContentTag msel soup rest
    else findContentTag msel soup rest

/-- The per-rule step of the content-selection loop, named so that theorems
can speak about what a single rule yields. -/
def cfgYield (msel : String → String → List String → Bool) (soup : HNode)
    (cfg : SelectorConfig) : Option HNode :=
  if !optTruthy cfg.type || !optTruthy cfg.selector then none
  else if cfg.type = some "css_selector" then selectOne msel (cfg.selector.getD "") soup
  else none

/-- Embedding of `ContentExtractor.extract_content` (content_extractor.py
lines 33-88).  `msel` is the selector-matching oracle, `parse` the HTML
parser (external collaborator).  Returns `(extracted_title, content)`;
empty markup short-circuits to `(none, none)`; when no rule matches, the
title (if any) is still returned with no content; otherwise the removal
selectors are applied to the found tag and it is serialised. -/
def extract_content (msel : String → String → List String → Bool)
    (parse : String → HNode) (content_selectors : List SelectorConfig)
    (remove_elements : List String) (chapter_title_selector : Option String)
    (html_content : String) : Option String × Option String :=
  if html_content = "" then (none, none)
  else
    let soup := parse html_content
    let extracted_title :=
      if optTruthy chapter_title_selector then
        match selectOne msel (chapter_title_selector.getD "") soup with
        | some title_tag => some (getTextStrip title_tag)
        | none => none
      else none
    match findContentTag msel soup content_selectors with
    | none => (extracted_title, none)
    | some main_content_tag =>
      (extracted_title,
       some (serializeNode (remove_unwanted_elements msel remove_elements main_content_tag)))

/-! ## Traversal loop of `main` (pageturner.py lines 126-190)

The collaborators are abstracted: `fetch` is `PageLoader.fetch_page`
(returns `none` on any network failure), `extractor` is
`extract_content` applied to the fetched markup, `nav` is
`get_next_chapter_url` on a fixed configuration.  Each call of `loopStep`
is one pass of the `while` body; `runLoop` iterates it with fuel (the
Python loop has no intrinsic bound).  Alongside the state, each step
reports the `(url, chapter_number)` pairs at which `fetch_page` was
actually called, so that theorems can speak about what was fetched. -/

/-- One accumulated chapter: the dict appended to `chapter_contents`. -/
structure ChapterRecord where
  title : String
  html_content : String
deriving DecidableEq, Repr

/-- The loop-carried state of `main`'s traversal. -/
structure LoopState where
  current_chapter_url : String
  processed_urls : List String
  chapter_number : Nat
  consecutive_empty_chapters : Nat
  chapter_contents : List ChapterRecord
deriving DecidableEq, Repr

/-- Why the traversal stopped. `urlFalsy` is the `while` condition itself
failing; `fuelOut` is exhaustion of the artificial fuel bound. -/
inductive StopReason where
  | urlFalsy : StopReason
  | urlLoop : StopReason
  | fetchFailed : StopReason
  | emptyStreak : StopReason
  | navEnd : StopReason
  | fuelOut : StopReason
deriving DecidableEq, Repr

/-- Outcome of one pass of the loop body: continue with a new state, or
stop with a final state and a reason. -/
inductive StepOut where
  | next : LoopState → StepOut
  | halt : LoopState → StopReason → StepOut
deriving DecidableEq, Repr

/-- The state carried by a step outcome. -/
def stepState : StepOut → LoopState
  | StepOut.next st => st
  | StepOut.halt st _ => st

/-- The chapter title used for the appended record: the extracted title if
truthy, else the default `"Chapter {chapter_number}"`. -/
def titleToUse (extracted_title : Option String) (chapter_number : Nat) : String :=
  if optTruthy extracted_title then extracted_title.getD ""
  else "Chapter " ++ toString chapter_number

/-- The advance at the end of a successful pass (pageturner.py lines
182-187): ask the navigator for the next URL; stop on `none`, else move to
it and increment the chapter number. -/
def navAdvance (nav : String → Option String) (current : String) (st : LoopState) :
    StepOut :=
  match nav current with
  | none => StepOut.halt st StopReason.navEnd
  | some next_url =>
    StepOut.next { st with current_chapter_url := next_url,
                           chapter_number := st.chapter_number + 1 }

/-- One pass of the `while` body of `main` (pageturner.py lines 151-190):
check the loop condition and the visited set, record the URL as processed,
fetch (a falsy result stops the run), extract, then either append a record
and reset the empty streak, or bump the streak and stop once it reaches the
threshold; finally advance via the navigator. -/
def loopStep (fetch : String → Option String)
    (extractor : String → Option String × Option String)
    (nav : String → Option String) (threshold : Nat) (st : LoopState) :
    StepOut × List (String × Nat) :=
  if st.current_chapter_url = "" then (StepOut.halt st StopReason.urlFalsy, [])
  else if st.processed_urls.contains st.current_chapter_url then
    (StepOut.halt st StopReason.urlLoop, [])
  else
    let st1 := { st with processed_urls := st.current_chapter_url :: st.processed_urls }
    let tr := [(st.current_chapter_url, st.chapter_number)]
    match fetch st.current_chapter_url with
    | none => (StepOut.halt st1 StopReason.fetchFailed, tr)
    | some chapter_html =>
      if chapter_html = "" then (StepOut.halt st1 StopReason.fetchFailed, tr)
      else
        let extracted := extractor chapter_html
        if optTruthy extracted.2 then
          let st2 := { st1 with
            chapter_contents := st1.chapter_contents ++
              [⟨titleToUse extracted.1 st.chapter_number, (extracted.2).getD ""⟩],
            consecutive_empty_chapters := 0 }
          (navAdvance nav st.current_chapter_url st2, tr)
        else
          let st2 := { st1 with
            consecutive_empty_chapters := st1.consecutive_empty_chapters + 1 }
          if threshold ≤ st2.consecutive_empty_chapters then
            (StepOut.halt st2 StopReason.emptyStreak, tr)
          else (navAdvance nav st.current_chapter_url st2, tr)

/-- The traversal loop: iterate `loopStep` until it halts or the fuel runs
out, accumulating the fetch trace. -/
def runLoop (fetch : String → Option String)
    (extractor : String → Option String × Option String)
    (nav : String → Option String) (threshold : Nat) :
    Nat → LoopState → LoopState × StopReason × List (String × Nat)
  | 0, st => (st, StopReason.fuelOut, [])
  | fuel + 1, st =>
    match loopStep fetch extractor nav threshold st with
    | (StepOut.halt stF r, tr) => (stF, r, tr)
    | (StepOut.next stN, tr) =>
      let res := runLoop fetch extractor nav threshold fuel stN
      (res.1, res.2.1, tr ++ res.2.2)

/-- The initial traversal state of `main` (pageturner.py lines 126-149):
start URL from the navigator, empty visited set, chapter number 1, empty
streak 0, no chapters. -/
def initState (start_url : String) : LoopState :=
  { current_chapter_url := start_url, processed_urls := [], chapter_number := 1,
    consecutive_empty_chapters := 0, chapter_contents := [] }

/-- A page that fetches successfully (truthy markup) but yields no truthy
extracted content. -/
def emptyPage (fetch : String → Option String)
    (extractor : String → Option String × Option String) (u : String) : Bool :=
  match fetch u with
  | none => false
  | some chapter_html =>
    chapter_html != "" && !optTruthy (extractor chapter_html).2

/-- A run of `n` consecutive pages, starting at `u` with visited set
`visited`, each of which passes the loop guards and is an `emptyPage`; the
navigator links each page of the run to the next (the last page of the run
needs no successor, since the loop stops there). -/
def emptyRunB (fetch : String → Option String)
    (extractor : String → Option String × Option String)
    (nav : String → Option String) :
    List String → String → Nat → Bool
  | _, _, 0 => true
  | visited, u, 1 =>
    u != "" && !visited.contains u && emptyPage fetch extractor u
  | visited, u, n + 2 =>
    u != "" && !visited.contains u && emptyPage fetch extractor u &&
      (match nav u with
       | none => false
       | some next => emptyRunB fetch extractor nav (u :: visited) next (n + 1))

/-! ## Named termination conditions of the navigator

These predicates name, for the theorems below, the three conditions under
which `get_next_chapter_url` reports the end of the sequence. -/

/-- The group the code parses as the chapter number: group 2 when the
pattern has more than one group, group 1 otherwise. -/
def navNumGroup (pat : Rx) (caps : Caps) : Option (List Char) :=
  if groupCount pat > 1 then capsLookup caps 2 else capsLookup caps 1

/-- Every capturing group the navigator reads participates in the match
found in the URL (vacuously true when nothing matches): group 1 always,
group 2 as well when the pattern has more than one group. -/
def navGroupsParticipate (pat : Rx) (url : String) : Bool :=
  match reSearch pat url.data with
  | none => true
  | some caps =>
    (capsLookup caps 1).isSome &&
      (decide (groupCount pat ≤ 1) || (capsLookup caps 2).isSome)

/-- Condition NavigationEnd 1: the pattern matches nowhere in the URL. -/
def navNoMatch (pat : Rx) (url : String) : Bool :=
  (reSearch pat url.data).isNone

/-- Condition NavigationEnd 2: the pattern matches, but the numeric group
fails to parse as an integer. -/
def navParseFails (pat : Rx) (url : String) : Bool :=
  match reSearch pat url.data with
  | none => false
  | some caps => (pyIntParse ((navNumGroup pat caps).getD [])).isNone

/-- The next URL the code computes before the stuck-guard: the matched
segment with its first digit run replaced by the incremented number,
spliced into the URL at the segment's first occurrence. -/
def navComputedNext (inc : Int) (url : String) (caps : Caps) (n : Int) : List Char :=
  let seg := (capsLookup caps 1).getD []
  replFirst seg (subFirstNum (toString (n + inc)).data seg) url.data

/-- Condition NavigationEnd 3: the computed next URL equals the current
URL (the stuck-guard). -/
def navStuck (pat : Rx) (inc : Int) (url : String) : Bool :=
  match reSearch pat url.data with
  | none => false
  | some caps =>
    match pyIntParse ((navNumGroup pat caps).getD []) with
    | none => false
    | some n => decide (navComputedNext inc url caps n = url.data)

/-! # Theorems -/

/-- C8: `_sanitize_filename` maps the novel title `"The Wandering Inn!!"`
to `"the_wandering_inn.epub"`: lowercased, spaces to underscores,
punctuation removed, `.epub` appended. -/
theorem C8_sanitize_wandering_inn :
    sanitize_filename "The Wandering Inn!!" = "the_wandering_inn.epub" := by
  decide

/-- C9: called on an empty (falsy) markup string, `extract_content`
returns `(none, none)` at once, for every parser, selector semantics and
configuration — so no selector is ever applied. -/
theorem C9_empty_markup (msel : String → String → List String → Bool)
    (parse : String → HNode) (content_selectors : List SelectorConfig)
    (remove_elements : List String) (chapter_title_selector : Option String) :
    extract_content msel parse content_selectors remove_elements
      chapter_title_selector "" = (none, none) := by
  simp [extract_content]

/-- C4: with the two-group pattern `"(/chapter-(\d+)\.html)"`, the chapter
number comes from group 2 and the replaceable segment from group 1: from
`"https://x.test/chapter-7.html"`, increment 1 gives
`"https://x.test/chapter-8.html"` and increment 5 gives
`"https://x.test/chapter-12.html"`. -/
theorem C4_chapter_pattern_increment :
    get_next_chapter_url chapterPattern 1 "https://x.test/chapter-7.html" =
      Except.ok (some "https://x.test/chapter-8.html") ∧
    get_next_chapter_url chapterPattern 5 "https://x.test/chapter-7.html" =
      Except.ok (some "https://x.test/chapter-12.html") := by
  constructor <;> rfl

/-- C10: a pattern with no capturing group that nevertheless matches the
URL makes `match.group(1)` raise `IndexError`, which the function catches,
returning `None` — no exception reaches the caller. -/
theorem C10_no_group_caught (pat : Rx) (inc : Int) (url : String)
    (hg : groupCount pat = 0) (_hm : (reSearch pat url.data).isSome = true) :
    get_next_chapter_url pat inc url = Except.ok none := by
  unfold get_next_chapter_url
  cases h : reSearch pat url.data with
  | none => rfl
  | some caps =>
    change navCatch (navBody pat inc url caps) = Except.ok none
    have h1 : ¬ groupCount pat > 1 := by omega
    have hb : navBody pat inc url caps = Except.error PyExn.indexError := by
      simp [navBody, h1, pyGroup, hg]
    rw [hb]
    rfl

/-- Witness for C10: the groupless pattern `chapter` matches
`"https://x.test/chapter-7.html"` and the navigator returns `None`. -/
theorem C10_witness :
    get_next_chapter_url (rlits "chapter") 1 "https://x.test/chapter-7.html" =
      Except.ok none :=
  C10_no_group_caught (rlits "chapter") 1 "https://x.test/chapter-7.html"
    (by decide) (by decide)

/-- C3 counterexample: the claim says `get_next_chapter_url` never raises
an exception to the caller, but for the configured pattern `(\d+)|y` on
current URL `"y"` the match participates only through the second
alternative, `match.group(1)` is Python `None`, and `int(None)` raises
`TypeError`, which the `except ValueError` / `except IndexError` clauses do
not catch: the exception reaches the caller. -/
theorem C3_counterexample :
    get_next_chapter_url (Rx.alt (Rx.group 1 (Rx.plus Rx.digit)) (Rx.lit 'y')) 1 "y" =
      Except.error PyExn.typeError := by
  rfl

/-- C3 (amended): provided the pattern has at least one capturing group
and every group the navigator reads participates in the match, the
navigator raises no exception, and it returns `None` exactly when the
pattern does not match the URL, or the numeric group fails to parse as an
integer, or the computed next URL equals the current URL; in every other
case it returns a URL string. -/
theorem C3_navigation_end_conditions (pat : Rx) (inc : Int) (url : String)
    (hg : 1 ≤ groupCount pat) (hp : navGroupsParticipate pat url = true) :
    (∃ r, get_next_chapter_url pat inc url = Except.ok r) ∧
    (get_next_chapter_url pat inc url = Except.ok none ↔
      (navNoMatch pat url = true ∨ navParseFails pat url = true ∨
        navStuck pat inc url = true)) ∧
    ((navNoMatch pat url = false ∧ navParseFails pat url = false ∧
        navStuck pat inc url = false) →
      ∃ u, get_next_chapter_url pat inc url = Except.ok (some u)) := by
  cases h : reSearch pat url.data with
  | none =>
    have eGet : get_next_chapter_url pat inc url = Except.ok none := by
      unfold get_next_chapter_url
      rw [h]
    have eNo : navNoMatch pat url = true := by
      simp [navNoMatch, h]
    refine ⟨⟨none, eGet⟩, ?_, ?_⟩
    · rw [eGet, eNo]
      simp
    · rintro ⟨h1, -, -⟩
      rw [h1] at eNo
      exact Bool.noConfusion eNo
  | some caps =>
    have eGet : get_next_chapter_url pat inc url = navCatch (navBody pat inc url caps) := by
      unfold get_next_chapter_url
      rw [h]
    have eNo : navNoMatch pat url = false := by
      simp [navNoMatch, h]
    have hp2 : (capsLookup caps 1).isSome = true ∧
        (groupCount pat ≤ 1 ∨ (capsLookup caps 2).isSome = true) := by
      unfold navGroupsParticipate at hp
      rw [h] at hp
      simpa using hp
    obtain ⟨seg, hseg⟩ := Option.isSome_iff_exists.mp hp2.1
    have hnumE : ∃ numStr, navNumGroup pat caps = some numStr := by
      unfold navNumGroup
      by_cases hcg : groupCount pat > 1
      · rcases hp2.2 with hle | hs2
        · omega
        · obtain ⟨s2, hs2e⟩ := Option.isSome_iff_exists.mp hs2
          exact ⟨s2, by rw [if_pos hcg]; exact hs2e⟩
      · exact ⟨seg, by rw [if_neg hcg]; exact hseg⟩
    obtain ⟨numStr, hnum⟩ := hnumE
    have eNumD : (navNumGroup pat caps).getD [] = numStr := by
      rw [hnum]
      rfl
    have hbody1 : (if groupCount pat > 1 then pyGroup pat caps 2 else pyGroup pat caps 1) =
        Except.ok (some numStr) := by
      unfold navNumGroup at hnum
      unfold pyGroup
      by_cases hcg : groupCount pat > 1
      · rw [if_pos hcg] at hnum ⊢
        rw [if_pos (by omega), hnum]
      · rw [if_neg hcg] at hnum ⊢
        rw [if_pos (by omega), hnum]
    have eParse : navParseFails pat url = (pyIntParse numStr).isNone := by
      simp only [navParseFails, h]
      rw [eNumD]
    have eStuck : navStuck pat inc url =
        (match pyIntParse numStr with
         | none => false
         | some n => decide (navComputedNext inc url caps n = url.data)) := by
      simp only [navStuck, h]
      rw [eNumD]
    cases hparse : pyIntParse numStr with
    | none =>
      have hb : navBody pat inc url caps = Except.error PyExn.valueError := by
        unfold navBody
        simp only [hbody1, hparse]
      have eParseT : navParseFails pat url = true := by
        rw [eParse, hparse]
        rfl
      refine ⟨⟨none, by rw [eGet, hb]; rfl⟩, ?_, ?_⟩
      · constructor
        · intro _
          right; left
          exact eParseT
        · intro _
          rw [eGet, hb]
          rfl
      · rintro ⟨-, h2, -⟩
        rw [h2] at eParseT
        exact Bool.noConfusion eParseT
    | some n =>
      have hg1 : pyGroup pat caps 1 = Except.ok (some seg) := by
        unfold pyGroup
        rw [if_pos (by omega), hseg]
      have hb : navBody pat inc url caps =
          (if navComputedNext inc url caps n = url.data then Except.ok none
           else Except.ok (some (String.mk (navComputedNext inc url caps n)))) := by
        unfold navBody
        rw [hbody1]
        simp only [hparse, hg1, navComputedNext, hseg, Option.getD_some]
      have eStuckEq : navStuck pat inc url =
          decide (navComputedNext inc url caps n = url.data) := by
        rw [eStuck, hparse]
      by_cases hstk : navComputedNext inc url caps n = url.data
      · have hbN : navBody pat inc url caps = Except.ok none := by
          rw [hb, if_pos hstk]
        have eStuckT : navStuck pat inc url = true := by
          rw [eStuckEq]
          exact decide_eq_true hstk
        refine ⟨⟨none, by rw [eGet, hbN]; rfl⟩, ?_, ?_⟩
        · constructor
          · intro _
            right; right
            exact eStuckT
          · intro _
            rw [eGet, hbN]
            rfl
        · rintro ⟨-, -, h3⟩
          rw [h3] at eStuckT
          exact Bool.noConfusion eStuckT
      · have hbS : navBody pat inc url caps =
            Except.ok (some (String.mk (navComputedNext inc url caps n))) := by
          rw [hb, if_neg hstk]
        have eStuckF : navStuck pat inc url = false := by
          rw [eStuckEq]
          exact decide_eq_false hstk
        have eParseF : navParseFails pat url = false := by
          rw [eParse, hparse]
          rfl
        refine ⟨⟨some (String.mk (navComputedNext inc url caps n)),
          by rw [eGet, hbS]; rfl⟩, ?_, ?_⟩
        · constructor
          · intro hcontra
            rw [eGet, hbS] at hcontra
            exact absurd hcontra (by simp [navCatch])
          · rintro (h1 | h2 | h3)
            · rw [h1] at eNo
              exact Bool.noConfusion eNo
            · rw [h2] at eParseF
              exact Bool.noConfusion eParseF
            · rw [h3] at eStuckF
              exact Bool.noConfusion eStuckF
        · intro _
          exact ⟨String.mk (navComputedNext inc url caps n), by rw [eGet, hbS]; rfl⟩

/-- Witness for C3: the documented configuration — pattern
`(/chapter-(\d+)\.html)` on `"https://x.test/chapter-7.html"` — satisfies
the participation hypotheses, no end-condition holds, and the navigator
answers with a URL. -/
theorem C3_witness :
    (∃ r, get_next_chapter_url chapterPattern 1 "https://x.test/chapter-7.html" =
        Except.ok r) ∧
    (get_next_chapter_url chapterPattern 1 "https://x.test/chapter-7.html" =
        Except.ok none ↔
      (navNoMatch chapterPattern "https://x.test/chapter-7.html" = true ∨
        navParseFails chapterPattern "https://x.test/chapter-7.html" = true ∨
        navStuck chapterPattern 1 "https://x.test/chapter-7.html" = true)) ∧
    ((navNoMatch chapterPattern "https://x.test/chapter-7.html" = false ∧
        navParseFails chapterPattern "https://x.test/chapter-7.html" = false ∧
        navStuck chapterPattern 1 "https://x.test/chapter-7.html" = false) →
      ∃ u, get_next_chapter_url chapterPattern 1 "https://x.test/chapter-7.html" =
        Except.ok (some u)) :=
  C3_navigation_end_conditions chapterPattern 1 "https://x.test/chapter-7.html"
    (by decide) (by decide)

/-- Helper: one pass of the content-selection loop agrees with the
per-rule step `cfgYield`. -/
theorem findContentTag_cons (msel : String → String → List String → Bool)
    (soup : HNode) (cfg : SelectorConfig) (rest : List SelectorConfig) :
    findContentTag msel soup (cfg :: rest) =
      (match cfgYield msel soup cfg with
       | some t => some t
       | none => findContentTag msel soup rest) := by
  by_cases h1 : (!optTruthy cfg.type || !optTruthy cfg.selector) = true
  · have hy : cfgYield msel soup cfg = none := by
      unfold cfgYield
      rw [if_pos h1]
    rw [hy]
    show findContentTag msel soup (cfg :: rest) = findContentTag msel soup rest
    conv_lhs => rw [findContentTag]
    rw [if_pos h1]
  · by_cases h2 : cfg.type = some "css_selector"
    · have hy : cfgYield msel soup cfg = selectOne msel (cfg.selector.getD "") soup := by
        unfold cfgYield
        rw [if_neg h1, if_pos h2]
      rw [hy]
      conv_lhs => rw [findContentTag]
      rw [if_neg h1, if_pos h2]
    · have hy : cfgYield msel soup cfg = none := by
        unfold cfgYield
        rw [if_neg h1, if_neg h2]
      rw [hy]
      show findContentTag msel soup (cfg :: rest) = findContentTag msel soup rest
      conv_lhs => rw [findContentTag]
      rw [if_neg h1, if_neg h2]

/-- Helper: a run of rules none of which yields a match contributes
nothing to the content-selection loop. -/
theorem findContentTag_append_none (msel : String → String → List String → Bool)
    (soup : HNode) (before rest : List SelectorConfig)
    (hb : ∀ c ∈ before, cfgYield msel soup c = none) :
    findContentTag msel soup (before ++ rest) = findContentTag msel soup rest := by
  induction before with
  | nil => rfl
  | cons c cs ih =>
    rw [List.cons_append, findContentTag_cons, hb c (List.mem_cons_self c cs)]
    exact ih (fun x hx => hb x (List.mem_cons_of_mem c hx))

/-- C5: content selection is first-match-wins.  (1) If no rule before
`cfg` yields a match and `cfg` yields `t`, the loop answers `t` no matter
what rules follow.  (2) A rule with a missing/empty type or selector, or
with a type other than `css_selector`, is skipped: the loop's answer is
that of the remaining rules, so extraction is not aborted.  (3) Through
`extract_content`, the returned content is the serialisation (after
removal) of the tag the earliest yielding rule found. -/
theorem C5_first_match_wins :
    (∀ (msel : String → String → List String → Bool) (soup : HNode)
       (before : List SelectorConfig) (cfg : SelectorConfig)
       (after : List SelectorConfig) (t : HNode),
       (∀ c ∈ before, cfgYield msel soup c = none) →
       cfgYield msel soup cfg = some t →
       findContentTag msel soup (before ++ cfg :: after) = some t) ∧
    (∀ (msel : String → String → List String → Bool) (soup : HNode)
       (cfg : SelectorConfig) (rest : List SelectorConfig),
       (¬ optTruthy cfg.type = true ∨ ¬ optTruthy cfg.selector = true ∨
         cfg.type ≠ some "css_selector") →
       findContentTag msel soup (cfg :: rest) = findContentTag msel soup rest) ∧
    (∀ (msel : String → String → List String → Bool) (parse : String → HNode)
       (before : List SelectorConfig) (cfg : SelectorConfig)
       (after : List SelectorConfig) (remove_elements : List String)
       (chapter_title_selector : Option String) (html_content : String)
       (t : HNode),
       html_content ≠ "" →
       (∀ c ∈ before, cfgYield msel (parse html_content) c = none) →
       cfgYield msel (parse html_content) cfg = some t →
       (extract_content msel parse (before ++ cfg :: after) remove_elements
           chapter_title_selector html_content).2 =
         some (serializeNode (remove_unwanted_elements msel remove_elements t))) := by
  have part1 : ∀ (msel : String → String → List String → Bool) (soup : HNode)
      (before : List SelectorConfig) (cfg : SelectorConfig)
      (after : List SelectorConfig) (t : HNode),
      (∀ c ∈ before, cfgYield msel soup c = none) →
      cfgYield msel soup cfg = some t →
      findContentTag msel soup (before ++ cfg :: after) = some t := by
    intro msel soup before cfg after t hb hy
    rw [findContentTag_append_none msel soup before (cfg :: after) hb,
      findContentTag_cons, hy]
  refine ⟨part1, ?_, ?_⟩
  · intro msel soup cfg rest hskip
    rw [findContentTag_cons]
    have hy : cfgYield msel soup cfg = none := by
      unfold cfgYield
      rcases hskip with h1 | h2 | h3
      · rw [if_pos]
        simp only [Bool.not_eq_true] at h1
        simp [h1]
      · rw [if_pos]
        simp only [Bool.not_eq_true] at h2
        simp [h2]
      · by_cases h1 : (!optTruthy cfg.type || !optTruthy cfg.selector) = true
        · rw [if_pos h1]
        · rw [if_neg h1, if_neg h3]
    rw [hy]
  · intro msel parse before cfg after remove_elements chapter_title_selector
      html_content t hhtml hb hy
    unfold extract_content
    rw [if_neg hhtml]
    simp only [part1 msel (parse html_content) before cfg after t hb hy]

/-- Helper: every pass of the loop body either halts before fetching, with
the state untouched and nothing fetched, or fetches exactly the current
URL (which the guard has just checked is unvisited) after recording it in
the visited set. -/
theorem loopStep_spec (fetch : String → Option String)
    (extractor : String → Option String × Option String)
    (nav : String → Option String) (threshold : Nat) (st : LoopState) :
    (∃ r, loopStep fetch extractor nav threshold st = (StepOut.halt st r, [])) ∨
    (st.processed_urls.contains st.current_chapter_url = false ∧
     (stepState (loopStep fetch extractor nav threshold st).1).processed_urls =
       st.current_chapter_url :: st.processed_urls ∧
     (loopStep fetch extractor nav threshold st).2 =
       [(st.current_chapter_url, st.chapter_number)]) := by
  unfold loopStep
  split
  · left
    exact ⟨StopReason.urlFalsy, rfl⟩
  · split
    · left
      exact ⟨StopReason.urlLoop, rfl⟩
    · next h2 =>
      have h2f : st.processed_urls.contains st.current_chapter_url = false :=
        Bool.eq_false_iff.mpr h2
      right
      refine ⟨h2f, ?_⟩
      dsimp only
      split
      · exact ⟨rfl, rfl⟩
      · split
        · exact ⟨rfl, rfl⟩
        · split
          · unfold navAdvance
            split
            · exact ⟨rfl, rfl⟩
            · exact ⟨rfl, rfl⟩
          · split
            · exact ⟨rfl, rfl⟩
            · unfold navAdvance
              split
              · exact ⟨rfl, rfl⟩
              · exact ⟨rfl, rfl⟩

/-- Helper: over any run of the loop, the URLs fetched are pairwise
distinct, none of them was already in the visited set, the visited set
only grows, and every fetched URL ends up in the final visited set. -/
theorem runLoop_trace_spec (fetch : String → Option String)
    (extractor : String → Option String × Option String)
    (nav : String → Option String) (threshold : Nat) :
    ∀ (fuel : Nat) (st : LoopState),
      (∀ u ∈ (runLoop fetch extractor nav threshold fuel st).2.2.map Prod.fst,
         u ∉ st.processed_urls) ∧
      ((runLoop fetch extractor nav threshold fuel st).2.2.map Prod.fst).Nodup ∧
      (∀ u ∈ st.processed_urls,
         u ∈ (runLoop fetch extractor nav threshold fuel st).1.processed_urls) ∧
      (∀ u ∈ (runLoop fetch extractor nav threshold fuel st).2.2.map Prod.fst,
         u ∈ (runLoop fetch extractor nav threshold fuel st).1.processed_urls) := by
  intro fuel
  induction fuel with
  | zero =>
    intro st
    simp [runLoop]
  | succ f ih =>
    intro st
    rcases hstep : loopStep fetch extractor nav threshold st with ⟨out, tr⟩
    cases out with
    | halt stF r =>
      have hrun : runLoop fetch extractor nav threshold (f + 1) st = (stF, r, tr) := by
        unfold runLoop
        rw [hstep]
      rw [hrun]
      rcases loopStep_spec fetch extractor nav threshold st with ⟨r2, hsp⟩ | ⟨hc, hproc, htr⟩
      · rw [hstep] at hsp
        injection hsp with hA hB
        injection hA with hSt hR
        subst hSt
        subst hB
        simp
      · rw [hstep] at hproc htr
        simp only [stepState] at hproc
        subst htr
        have hnm : st.current_chapter_url ∉ st.processed_urls := by
          simpa using hc
        refine ⟨?_, ?_, ?_, ?_⟩
        · intro u hu
          simp only [List.map_cons, List.map_nil, List.mem_singleton] at hu
          subst hu
          exact hnm
        · simp
        · intro u hu
          rw [hproc]
          exact List.mem_cons_of_mem _ hu
        · intro u hu
          simp only [List.map_cons, List.map_nil, List.mem_singleton] at hu
          subst hu
          rw [hproc]
          exact List.mem_cons_self _ _
    | next stN =>
      have hrun : runLoop fetch extractor nav threshold (f + 1) st =
          ((runLoop fetch extractor nav threshold f stN).1,
           (runLoop fetch extractor nav threshold f stN).2.1,
           tr ++ (runLoop fetch extractor nav threshold f stN).2.2) := by
        conv_lhs => rw [runLoop]
        rw [hstep]
      rw [hrun]
      dsimp only
      rcases loopStep_spec fetch extractor nav threshold st with ⟨r2, hsp⟩ | ⟨hc, hproc, htr⟩
      · rw [hstep] at hsp
        exact absurd (congrArg Prod.fst hsp) (by simp)
      · rw [hstep] at hproc htr
        simp only [stepState] at hproc
        subst htr
        have hnm : st.current_chapter_url ∉ st.processed_urls := by
          simpa using hc
        obtain ⟨ih1, ih2, ih3, ih4⟩ := ih stN
        have hcurN : st.current_chapter_url ∈ stN.processed_urls := by
          rw [hproc]
          exact List.mem_cons_self _ _
        have hsub : ∀ u ∈ st.processed_urls, u ∈ stN.processed_urls := by
          intro u hu
          rw [hproc]
          exact List.mem_cons_of_mem _ hu
        refine ⟨?_, ?_, ?_, ?_⟩
        · intro u hu
          simp only [List.map_append, List.map_cons, List.map_nil, List.mem_append,
            List.mem_singleton] at hu
          rcases hu with hu | hu
          · subst hu
            exact hnm
          · intro hmem
            exact ih1 u hu (hsub u hmem)
        · simp only [List.map_append, List.map_cons, List.map_nil, List.singleton_append]
          rw [List.nodup_cons]
          constructor
          · intro hmem
            exact ih1 _ hmem hcurN
          · exact ih2
        · intro u hu
          exact ih3 u (hsub u hu)
        · intro u hu
          simp only [List.map_append, List.map_cons, List.map_nil, List.mem_append,
            List.mem_singleton] at hu
          rcases hu with hu | hu
          · subst hu
            exact ih3 _ hcurN
          · exact ih4 u hu

/-- C2: within one traversal run no URL is fetched twice — the fetched
URLs are pairwise distinct and disjoint from the starting visited set, the
visited set only grows, and every fetched URL is in the visited set from
the moment it is fetched (so a navigator answer already in the visited set
stops the loop before any repeat fetch). -/
theorem C2_no_url_fetched_twice (fetch : String → Option String)
    (extractor : String → Option String × Option String)
    (nav : String → Option String) (threshold fuel : Nat) (st : LoopState) :
    ((runLoop fetch extractor nav threshold fuel st).2.2.map Prod.fst).Nodup ∧
    (∀ u ∈ (runLoop fetch extractor nav threshold fuel st).2.2.map Prod.fst,
       u ∉ st.processed_urls) ∧
    (∀ u ∈ st.processed_urls,
       u ∈ (runLoop fetch extractor nav threshold fuel st).1.processed_urls) ∧
    (∀ u ∈ (runLoop fetch extractor nav threshold fuel st).2.2.map Prod.fst,
       u ∈ (runLoop fetch extractor nav threshold fuel st).1.processed_urls) := by
  obtain ⟨h1, h2, h3, h4⟩ := runLoop_trace_spec fetch extractor nav threshold fuel st
  exact ⟨h2, h1, h3, h4⟩

/-- Witness for C2: in a two-page run whose navigator then loops back to
the start URL, the loop stops at the repeat; the fetched URLs are distinct
and the second URL was not initially visited. -/
theorem C2_witness :
    (((runLoop (fun _ => some "h") (fun _ => (none, some "c"))
        (fun u => if u = "s" then some "t" else some "s") 3 5
        (initState "s")).2.2.map Prod.fst).Nodup) ∧
    "t" ∉ (initState "s").processed_urls :=
  ⟨(C2_no_url_fetched_twice (fun _ => some "h") (fun _ => (none, some "c"))
      (fun u => if u = "s" then some "t" else some "s") 3 5 (initState "s")).1,
   (C2_no_url_fetched_twice (fun _ => some "h") (fun _ => (none, some "c"))
      (fun u => if u = "s" then some "t" else some "s") 3 5 (initState "s")).2.1
     "t" (by decide)⟩

/-- Witness for C5: two rules, each matching a different element; the
extractor returns the first rule's element and never consults the second. -/
theorem C5_witness :
    (extract_content (fun sel tag _ => sel == tag)
        (fun _ => HNode.elem "page" []
          [HNode.elem "one" [] [HNode.text "first"],
           HNode.elem "two" [] [HNode.text "second"]])
        [⟨some "css_selector", some "one"⟩, ⟨some "css_selector", some "two"⟩]
        [] none "<page>").2 =
      some (serializeNode (remove_unwanted_elements (fun sel tag _ => sel == tag) []
        (HNode.elem "one" [] [HNode.text "first"]))) :=
  C5_first_match_wins.2.2 (fun sel tag _ => sel == tag)
    (fun _ => HNode.elem "page" []
      [HNode.elem "one" [] [HNode.text "first"],
       HNode.elem "two" [] [HNode.text "second"]])
    [] ⟨some "css_selector", some "one"⟩ [⟨some "css_selector", some "two"⟩]
    [] none "<page>" (HNode.elem "one" [] [HNode.text "first"])
    (by decide) (by simp) rfl

/-- Helper: removal only rewrites a node below its root, so whether the
node itself matches a selector is unchanged. -/
theorem nodeMatches_removeMatching (msel : String → String → List String → Bool)
    (sel sel2 : String) (t : HNode) :
    nodeMatches msel sel (removeMatching msel sel2 t) = nodeMatches msel sel t := by
  cases t <;> rfl

mutual

/-- Helper: after one removal pass for `sel`, no descendant matching `sel`
survives. -/
theorem removeMatching_no_match (msel : String → String → List String → Bool)
    (sel : String) :
    ∀ (t : HNode), ∀ d ∈ descendantsOf (removeMatching msel sel t),
      nodeMatches msel sel d = false
  | HNode.text s => by
    intro d hd
    simp [removeMatching, descendantsOf] at hd
  | HNode.elem tag classes children => by
    intro d hd
    exact removeMatchingList_no_match msel sel children d hd

/-- Helper: forest version of `removeMatching_no_match`. -/
theorem removeMatchingList_no_match (msel : String → String → List String → Bool)
    (sel : String) :
    ∀ (l : List HNode), ∀ d ∈ descendantsList (removeMatchingList msel sel l),
      nodeMatches msel sel d = false
  | [] => by
    intro d hd
    simp [removeMatchingList, descendantsList] at hd
  | n :: rest => by
    intro d hd
    by_cases hn : nodeMatches msel sel n = true
    · rw [show removeMatchingList msel sel (n :: rest) = removeMatchingList msel sel rest by
        conv_lhs => rw [removeMatchingList]
        rw [if_pos hn]] at hd
      exact removeMatchingList_no_match msel sel rest d hd
    · rw [show removeMatchingList msel sel (n :: rest) =
          removeMatching msel sel n :: removeMatchingList msel sel rest by
        conv_lhs => rw [removeMatchingList]
        rw [if_neg hn]] at hd
      rw [show descendantsList (removeMatching msel sel n :: removeMatchingList msel sel rest) =
          removeMatching msel sel n ::
            (descendantsOf (removeMatching msel sel n) ++
              descendantsList (removeMatchingList msel sel rest)) from rfl] at hd
      rcases List.mem_cons.mp hd with heq | hd2
      · subst heq
        rw [nodeMatches_removeMatching]
        exact Bool.eq_false_iff.mpr hn
      · rcases List.mem_append.mp hd2 with hd3 | hd4
        · exact removeMatching_no_match msel sel n d hd3
        · exact removeMatchingList_no_match msel sel rest d hd4

end

mutual

/-- Helper: a removal pass for another selector cannot create a match for
`sel`: if no descendant matched `sel` before, none does after. -/
theorem removeMatching_keeps_clean (msel : String → String → List String → Bool)
    (sel sel2 : String) :
    ∀ (t : HNode), (∀ d ∈ descendantsOf t, nodeMatches msel sel d = false) →
      ∀ d ∈ descendantsOf (removeMatching msel sel2 t), nodeMatches msel sel d = false
  | HNode.text s => by
    intro _ d hd
    simp [removeMatching, descendantsOf] at hd
  | HNode.elem tag classes children => by
    intro h d hd
    exact removeMatchingList_keeps_clean msel sel sel2 children h d hd

/-- Helper: forest version of `removeMatching_keeps_clean`. -/
theorem removeMatchingList_keeps_clean (msel : String → String → List String → Bool)
    (sel sel2 : String) :
    ∀ (l : List HNode), (∀ d ∈ descendantsList l, nodeMatches msel sel d = false) →
      ∀ d ∈ descendantsList (removeMatchingList msel sel2 l),
        nodeMatches msel sel d = false
  | [] => by
    intro _ d hd
    simp [removeMatchingList, descendantsList] at hd
  | n :: rest => by
    intro h d hd
    have hmemList : ∀ d ∈ descendantsList rest, nodeMatches msel sel d = false := by
      intro x hx
      refine h x ?_
      rw [show descendantsList (n :: rest) =
          n :: (descendantsOf n ++ descendantsList rest) from rfl]
      exact List.mem_cons_of_mem n (List.mem_append_right _ hx)
    have hn : nodeMatches msel sel n = false := by
      refine h n ?_
      rw [show descendantsList (n :: rest) =
          n :: (descendantsOf n ++ descendantsList rest) from rfl]
      exact List.mem_cons_self _ _
    have hdn : ∀ d ∈ descendantsOf n, nodeMatches msel sel d = false := by
      intro x hx
      refine h x ?_
      rw [show descendantsList (n :: rest) =
          n :: (descendantsOf n ++ descendantsList rest) from rfl]
      exact List.mem_cons_of_mem n (List.mem_append_left _ hx)
    by_cases hcond : nodeMatches msel sel2 n = true
    · rw [show removeMatchingList msel sel2 (n :: rest) = removeMatchingList msel sel2 rest by
        conv_lhs => rw [removeMatchingList]
        rw [if_pos hcond]] at hd
      exact removeMatchingList_keeps_clean msel sel sel2 rest hmemList d hd
    · rw [show removeMatchingList msel sel2 (n :: rest) =
          removeMatching msel sel2 n :: removeMatchingList msel sel2 rest by
        conv_lhs => rw [removeMatchingList]
        rw [if_neg hcond]] at hd
      rw [show descendantsList (removeMatching msel sel2 n :: removeMatchingList msel sel2 rest) =
          removeMatching msel sel2 n ::
            (descendantsOf (removeMatching msel sel2 n) ++
              descendantsList (removeMatchingList msel sel2 rest)) from rfl] at hd
      rcases List.mem_cons.mp hd with heq | hd2
      · subst heq
        rw [nodeMatches_removeMatching]
        exact hn
      · rcases List.mem_append.mp hd2 with hd3 | hd4
        · exact removeMatching_keeps_clean msel sel sel2 n hdn d hd3
        · exact removeMatchingList_keeps_clean msel sel sel2 rest hmemList d hd4

end

/-- Helper: once a subtree is clean of `sel`-matches, any further sequence
of removal passes keeps it clean. -/
theorem foldl_remove_keeps_clean (msel : String → String → List String → Bool)
    (sel : String) :
    ∀ (sels : List String) (t : HNode),
      (∀ d ∈ descendantsOf t, nodeMatches msel sel d = false) →
      ∀ d ∈ descendantsOf (sels.foldl (fun a s => removeMatching msel s a) t),
        nodeMatches msel sel d = false := by
  intro sels
  induction sels with
  | nil =>
    intro t h
    exact h
  | cons s rest ih =>
    intro t h
    exact ih (removeMatching msel s t) (removeMatching_keeps_clean msel sel s t h)

/-- Helper: `_remove_unwanted_elements` leaves no descendant matching any
of the configured removal selectors. -/
theorem remove_unwanted_no_match (msel : String → String → List String → Bool)
    (sel : String) :
    ∀ (sels : List String), sel ∈ sels → ∀ (t : HNode),
      ∀ d ∈ descendantsOf (remove_unwanted_elements msel sels t),
        nodeMatches msel sel d = false := by
  intro sels
  induction sels with
  | nil =>
    intro h
    cases h
  | cons s rest ih =>
    intro hsel t
    have e : remove_unwanted_elements msel (s :: rest) t =
        remove_unwanted_elements msel rest (removeMatching msel s t) := rfl
    rw [e]
    rcases List.mem_cons.mp hsel with heq | hmem
    · subst heq
      have e2 : remove_unwanted_elements msel rest (removeMatching msel sel t) =
          rest.foldl (fun a s => removeMatching msel s a) (removeMatching msel sel t) := rfl
      rw [e2]
      exact foldl_remove_keeps_clean msel sel rest (removeMatching msel sel t)
        (removeMatching_no_match msel sel t)
    · exact ih hmem (removeMatching msel s t)

/-- C6 counterexample: the claim concludes that no element matching a
remove selector appears in the returned content string, but `tag.select`
only searches descendants, so a content root that itself matches a remove
selector is kept.  With content selector and remove selector both `.ad`
on markup whose ad element is the content root, the returned string is
exactly the serialisation of an element matching the remove selector. -/
theorem C6_counterexample :
    (extract_content (fun sel _tag classes => sel == ".ad" && classes.contains "ad")
        (fun _ => HNode.elem "[document]" []
          [HNode.elem "div" ["ad"] [HNode.text "buy now"]])
        [⟨some "css_selector", some ".ad"⟩] [".ad"] none
        "<div class=\"ad\">buy now</div>").2 =
      some "<div class=\"ad\">buy now</div>" ∧
    nodeMatches (fun sel _tag classes => sel == ".ad" && classes.contains "ad") ".ad"
      (HNode.elem "div" ["ad"] [HNode.text "buy now"]) = true ∧
    serializeNode (HNode.elem "div" ["ad"] [HNode.text "buy now"]) =
      "<div class=\"ad\">buy now</div>" := by
  refine ⟨rfl, rfl, rfl⟩

/-- C6 (amended): whenever a content node is selected from nonempty
markup, every strict descendant matching any remove selector is deleted
before serialisation: the returned content is the serialisation of the
selected node after removal, and that tree has no descendant matching any
remove selector (the selected root itself is kept even if it matches). -/
theorem C6_remove_descendants (msel : String → String → List String → Bool)
    (parse : String → HNode) (content_selectors : List SelectorConfig)
    (remove_elements : List String) (chapter_title_selector : Option String)
    (html_content : String) (t0 : HNode)
    (hh : html_content ≠ "")
    (hf : findContentTag msel (parse html_content) content_selectors = some t0) :
    (extract_content msel parse content_selectors remove_elements
        chapter_title_selector html_content).2 =
      some (serializeNode (remove_unwanted_elements msel remove_elements t0)) ∧
    (∀ sel ∈ remove_elements,
      ∀ d ∈ descendantsOf (remove_unwanted_elements msel remove_elements t0),
        nodeMatches msel sel d = false) := by
  constructor
  · unfold extract_content
    rw [if_neg hh]
    simp only [hf]
  · intro sel hsel
    exact remove_unwanted_no_match msel sel remove_elements hsel t0

/-- Witness for C6: content root `main` containing an ad `div`; the ad is
removed, the returned content is the serialisation of the cleaned tree,
and the surviving text descendant does not match the remove selector. -/
theorem C6_witness :
    (extract_content (fun sel tag classes => sel == tag || (sel == ".ad" && classes.contains "ad"))
        (fun _ => HNode.elem "[document]" []
          [HNode.elem "main" []
            [HNode.elem "div" ["ad"] [HNode.text "ad!"], HNode.text "story"]])
        [⟨some "css_selector", some "main"⟩] [".ad"] none "<main>").2 =
      some (serializeNode (remove_unwanted_elements
        (fun sel tag classes => sel == tag || (sel == ".ad" && classes.contains "ad"))
        [".ad"]
        (HNode.elem "main" []
          [HNode.elem "div" ["ad"] [HNode.text "ad!"], HNode.text "story"]))) ∧
    nodeMatches (fun sel tag classes => sel == tag || (sel == ".ad" && classes.contains "ad"))
      ".ad" (HNode.text "story") = false :=
  ⟨(C6_remove_descendants
      (fun sel tag classes => sel == tag || (sel == ".ad" && classes.contains "ad"))
      (fun _ => HNode.elem "[document]" []
        [HNode.elem "main" []
          [HNode.elem "div" ["ad"] [HNode.text "ad!"], HNode.text "story"]])
      [⟨some "css_selector", some "main"⟩] [".ad"] none "<main>"
      (HNode.elem "main" []
        [HNode.elem "div" ["ad"] [HNode.text "ad!"], HNode.text "story"])
      (by decide) rfl).1,
   (C6_remove_descendants
      (fun sel tag classes => sel == tag || (sel == ".ad" && classes.contains "ad"))
      (fun _ => HNode.elem "[document]" []
        [HNode.elem "main" []
          [HNode.elem "div" ["ad"] [HNode.text "ad!"], HNode.text "story"]])
      [⟨some "css_selector", some "main"⟩] [".ad"] none "<main>"
      (HNode.elem "main" []
        [HNode.elem "div" ["ad"] [HNode.text "ad!"], HNode.text "story"])
      (by decide) rfl).2 ".ad" (by simp) (HNode.text "story")
     (by exact List.mem_cons_self _ _)⟩

/-- Helper: the advance step changes only the current URL and the chapter
number, so the state it carries keeps the accumulated chapters. -/
theorem navAdvance_contents (nav : String → Option String) (u : String) (st2 : LoopState) :
    (stepState (navAdvance nav u st2)).chapter_contents = st2.chapter_contents := by
  unfold navAdvance
  split
  · rfl
  · rfl

/-- C7: the chapter index starts at 1; whenever the loop advances to a
next URL the index grows by exactly 1 (in both the content and the
no-content branch); and when content is present but the extractor returned
no title, the appended record is titled `"Chapter {chapter_index}"`. -/
theorem C7_chapter_index :
    (∀ start_url : String, (initState start_url).chapter_number = 1) ∧
    (∀ (fetch : String → Option String)
       (extractor : String → Option String × Option String)
       (nav : String → Option String) (threshold : Nat) (st stN : LoopState)
       (tr : List (String × Nat)),
       loopStep fetch extractor nav threshold st = (StepOut.next stN, tr) →
       stN.chapter_number = st.chapter_number + 1) ∧
    (∀ (fetch : String → Option String)
       (extractor : String → Option String × Option String)
       (nav : String → Option String) (threshold : Nat) (st : LoopState)
       (chapter_html : String) (ti : Option String) (c : String),
       st.current_chapter_url ≠ "" →
       st.processed_urls.contains st.current_chapter_url = false →
       fetch st.current_chapter_url = some chapter_html →
       chapter_html ≠ "" →
       extractor chapter_html = (ti, some c) →
       c ≠ "" →
       optTruthy ti = false →
       (stepState (loopStep fetch extractor nav threshold st).1).chapter_contents =
         st.chapter_contents ++ [⟨"Chapter " ++ toString st.chapter_number, c⟩]) := by
  refine ⟨fun _ => rfl, ?_, ?_⟩
  · intro fetch extractor nav threshold st stN tr h
    unfold loopStep at h
    split at h
    · simp at h
    · split at h
      · simp at h
      · dsimp only at h
        split at h
        · simp at h
        · split at h
          · simp at h
          · split at h
            · unfold navAdvance at h
              split at h
              · simp at h
              · simp only [Prod.mk.injEq, StepOut.next.injEq] at h
                obtain ⟨h1, -⟩ := h
                rw [← h1]
            · split at h
              · simp at h
              · unfold navAdvance at h
                split at h
                · simp at h
                · simp only [Prod.mk.injEq, StepOut.next.injEq] at h
                  obtain ⟨h1, -⟩ := h
                  rw [← h1]
  · intro fetch extractor nav threshold st chapter_html ti c hu hcont hfetch hhtml hex hc hti
    unfold loopStep
    rw [if_neg hu]
    rw [if_neg (show ¬ st.processed_urls.contains st.current_chapter_url = true from
      fun hcc => by rw [hcc] at hcont; exact Bool.noConfusion hcont)]
    dsimp only
    simp only [hfetch]
    rw [if_neg hhtml]
    simp only [hex]
    rw [if_pos (show optTruthy (some c) = true by simp [optTruthy, hc])]
    dsimp only
    rw [navAdvance_contents]
    unfold titleToUse
    rw [if_neg (show ¬ optTruthy ti = true from
      fun htc => by rw [htc] at hti; exact Bool.noConfusion hti)]
    rfl

/-- Witness for C7: one concrete pass on the initial state — index 1,
advance raises it to 2, and the record defaults to title `"Chapter 1"`. -/
theorem C7_witness :
    (initState "s").chapter_number = 1 ∧
    (LoopState.mk "u2" ["s"] 2 0 [⟨"Chapter 1", "c"⟩]).chapter_number =
      (initState "s").chapter_number + 1 ∧
    (stepState (loopStep (fun _ => some "h")
        (fun _ => ((none : Option String), some "c"))
        (fun _ => some "u2") 3 (initState "s")).1).chapter_contents =
      (initState "s").chapter_contents ++
        [⟨"Chapter " ++ toString (initState "s").chapter_number, "c"⟩] :=
  ⟨C7_chapter_index.1 "s",
   C7_chapter_index.2.1 (fun _ => some "h") (fun _ => (none, some "c"))
     (fun _ => some "u2") 3 (initState "s")
     (LoopState.mk "u2" ["s"] 2 0 [⟨"Chapter 1", "c"⟩]) [("s", 1)] (by rfl),
   C7_chapter_index.2.2 (fun _ => some "h") (fun _ => (none, some "c"))
     (fun _ => some "u2") 3 (initState "s") "h" none "c"
     (by decide) rfl rfl (by decide) rfl (by decide) rfl⟩

/-- Helper: a run of empty pages drives the loop to the empty-streak exit:
starting with streak `e` and a run of `n` guard-passing, successfully
fetched, content-free pages with `e + n = T`, the loop stops with reason
`emptyStreak`, appends no chapter, ends with streak `T`, and fetches
exactly the `n` pages of the run. -/
theorem emptyRun_terminates (fetch : String → Option String)
    (extractor : String → Option String × Option String)
    (nav : String → Option String) (T : Nat) :
    ∀ (n : Nat) (st : LoopState) (fuel : Nat),
      1 ≤ n →
      st.consecutive_empty_chapters + n = T →
      n ≤ fuel →
      emptyRunB fetch extractor nav st.processed_urls st.current_chapter_url n = true →
      (runLoop fetch extractor nav T fuel st).2.1 = StopReason.emptyStreak ∧
      (runLoop fetch extractor nav T fuel st).1.chapter_contents = st.chapter_contents ∧
      (runLoop fetch extractor nav T fuel st).1.consecutive_empty_chapters = T ∧
      (runLoop fetch extractor nav T fuel st).2.2.length = n := by
  intro n
  induction n with
  | zero =>
    intro st fuel h1
    exact absurd h1 (by omega)
  | succ m ih =>
    intro st fuel h1 hsum hfuel hrun
    cases fuel with
    | zero => exact absurd hfuel (by omega)
    | succ f =>
      cases m with
      | zero =>
        have hrun1 : ((st.current_chapter_url != "") &&
            (!st.processed_urls.contains st.current_chapter_url) &&
            emptyPage fetch extractor st.current_chapter_url) = true := hrun
        simp only [Bool.and_eq_true, bne_iff_ne, ne_eq] at hrun1
        obtain ⟨⟨hU, hCf⟩, hPage⟩ := hrun1
        cases hfu : fetch st.current_chapter_url with
        | none => simp [emptyPage, hfu] at hPage
        | some html =>
          simp only [emptyPage, hfu, Bool.and_eq_true, bne_iff_ne, ne_eq] at hPage
          obtain ⟨hhtml, hopt⟩ := hPage
          have hstep : loopStep fetch extractor nav T st =
              (StepOut.halt { st with
                  processed_urls := st.current_chapter_url :: st.processed_urls,
                  consecutive_empty_chapters := st.consecutive_empty_chapters + 1 }
                StopReason.emptyStreak,
               [(st.current_chapter_url, st.chapter_number)]) := by
            unfold loopStep
            rw [if_neg hU]
            rw [if_neg (show ¬ st.processed_urls.contains st.current_chapter_url = true from
              fun hcc => by rw [hcc] at hCf; exact Bool.noConfusion hCf)]
            dsimp only
            simp only [hfu]
            rw [if_neg hhtml]
            rw [if_neg (show ¬ optTruthy (extractor html).2 = true from
              fun hoc => by rw [hoc] at hopt; exact Bool.noConfusion hopt)]
            rw [if_pos (show T ≤ st.consecutive_empty_chapters + 1 by omega)]
          have hrunEq : runLoop fetch extractor nav T (f + 1) st =
              ({ st with
                  processed_urls := st.current_chapter_url :: st.processed_urls,
                  consecutive_empty_chapters := st.consecutive_empty_chapters + 1 },
               StopReason.emptyStreak,
               [(st.current_chapter_url, st.chapter_number)]) := by
            conv_lhs => rw [runLoop]
            rw [hstep]
          rw [hrunEq]
          refine ⟨rfl, rfl, ?_, rfl⟩
          show st.consecutive_empty_chapters + 1 = T
          omega
      | succ k =>
        have hrun2 : ((st.current_chapter_url != "") &&
            (!st.processed_urls.contains st.current_chapter_url) &&
            emptyPage fetch extractor st.current_chapter_url &&
            (match nav st.current_chapter_url with
             | none => false
             | some next => emptyRunB fetch extractor nav
                 (st.current_chapter_url :: st.processed_urls) next (k + 1))) = true := hrun
        simp only [Bool.and_eq_true, bne_iff_ne, ne_eq] at hrun2
        obtain ⟨⟨⟨hU, hCf⟩, hPage⟩, hNav⟩ := hrun2
        cases hfu : fetch st.current_chapter_url with
        | none => simp [emptyPage, hfu] at hPage
        | some html =>
          simp only [emptyPage, hfu, Bool.and_eq_true, bne_iff_ne, ne_eq] at hPage
          obtain ⟨hhtml, hopt⟩ := hPage
          cases hnav : nav st.current_chapter_url with
          | none =>
            rw [hnav] at hNav
            simp at hNav
          | some next =>
            rw [hnav] at hNav
            have hTail : emptyRunB fetch extractor nav
                (st.current_chapter_url :: st.processed_urls) next (k + 1) = true := hNav
            have hstep : loopStep fetch extractor nav T st =
                (StepOut.next { st with
                    current_chapter_url := next,
                    processed_urls := st.current_chapter_url :: st.processed_urls,
                    chapter_number := st.chapter_number + 1,
                    consecutive_empty_chapters := st.consecutive_empty_chapters + 1 },
                 [(st.current_chapter_url, st.chapter_number)]) := by
              unfold loopStep
              rw [if_neg hU]
              rw [if_neg (show ¬ st.processed_urls.contains st.current_chapter_url = true from
                fun hcc => by rw [hcc] at hCf; exact Bool.noConfusion hCf)]
              dsimp only
              simp only [hfu]
              rw [if_neg hhtml]
              rw [if_neg (show ¬ optTruthy (extractor html).2 = true from
              fun hoc => by rw [hoc] at hopt; exact Bool.noConfusion hopt)]
              rw [if_neg (show ¬ T ≤ st.consecutive_empty_chapters + 1 by omega)]
              unfold navAdvance
              rw [hnav]
            have hrunEq : runLoop fetch extractor nav T (f + 1) st =
                ((runLoop fetch extractor nav T f { st with
                    current_chapter_url := next,
                    processed_urls := st.current_chapter_url :: st.processed_urls,
                    chapter_number := st.chapter_number + 1,
                    consecutive_empty_chapters := st.consecutive_empty_chapters + 1 }).1,
                 (runLoop fetch extractor nav T f { st with
                    current_chapter_url := next,
                    processed_urls := st.current_chapter_url :: st.processed_urls,
                    chapter_number := st.chapter_number + 1,
                    consecutive_empty_chapters := st.consecutive_empty_chapters + 1 }).2.1,
                 (st.current_chapter_url, st.chapter_number) ::
                   (runLoop fetch extractor nav T f { st with
                      current_chapter_url := next,
                      processed_urls := st.current_chapter_url :: st.processed_urls,
                      chapter_number := st.chapter_number + 1,
                      consecutive_empty_chapters := st.consecutive_empty_chapters + 1 }).2.2) := by
              conv_lhs => rw [runLoop]
              rw [hstep]
              rfl
            obtain ⟨ih1, ih2, ih3, ih4⟩ := ih { st with
                current_chapter_url := next,
                processed_urls := st.current_chapter_url :: st.processed_urls,
                chapter_number := st.chapter_number + 1,
                consecutive_empty_chapters := st.consecutive_empty_chapters + 1 } f
              (by omega)
              (show st.consecutive_empty_chapters + 1 + (k + 1) = T by omega)
              (by omega)
              hTail
            rw [hrunEq]
            refine ⟨ih1, ih2, ih3, ?_⟩
            rw [List.length_cons, ih4]

/-- C1: for any configured empty-chapter threshold `T ≥ 1`, a run of
exactly `T` consecutive pages that fetch successfully but yield no
extractable content terminates the traversal at the end of that run with
reason `emptyStreak`: no ChapterRecord is appended during the streak, the
empty-streak counter reaches `T`, and exactly `T` pages are fetched. -/
theorem C1_empty_streak_terminates (fetch : String → Option String)
    (extractor : String → Option String × Option String)
    (nav : String → Option String) (T fuel : Nat) (st : LoopState)
    (hT : 1 ≤ T) (h0 : st.consecutive_empty_chapters = 0) (hfuel : T ≤ fuel)
    (hrun : emptyRunB fetch extractor nav st.processed_urls
      st.current_chapter_url T = true) :
    (runLoop fetch extractor nav T fuel st).2.1 = StopReason.emptyStreak ∧
    (runLoop fetch extractor nav T fuel st).1.chapter_contents = st.chapter_contents ∧
    (runLoop fetch extractor nav T fuel st).1.consecutive_empty_chapters = T ∧
    (runLoop fetch extractor nav T fuel st).2.2.length = T :=
  emptyRun_terminates fetch extractor nav T T st fuel hT (by omega) hfuel hrun

/-- Witness for C1: threshold 2, every page fetches as `"h"` with no
extractable content, fresh URLs throughout — the traversal from the
initial state stops by empty streak after exactly 2 fetches with no
chapters. -/
theorem C1_witness :
    (runLoop (fun _ => some "h")
        (fun _ => ((none : Option String), (none : Option String)))
        (fun u => some (u ++ "a")) 2 2 (initState "s")).2.1 =
      StopReason.emptyStreak ∧
    (runLoop (fun _ => some "h")
        (fun _ => ((none : Option String), (none : Option String)))
        (fun u => some (u ++ "a")) 2 2 (initState "s")).1.chapter_contents =
      (initState "s").chapter_contents ∧
    (runLoop (fun _ => some "h")
        (fun _ => ((none : Option String), (none : Option String)))
        (fun u => some (u ++ "a")) 2 2 (initState "s")).1.consecutive_empty_chapters = 2 ∧
    (runLoop (fun _ => some "h")
        (fun _ => ((none : Option String), (none : Option String)))
        (fun u => some (u ++ "a")) 2 2 (initState "s")).2.2.length = 2 :=
  C1_empty_streak_terminates (fun _ => some "h")
    (fun _ => ((none : Option String), (none : Option String)))
    (fun u => some (u ++ "a")) 2 2 (initState "s")
    (by decide) rfl (by decide) (by decide)
